import Mathlib

/-!
Shallow embedding of `src/logo_pack_starter/build_logo_pack.py`.

Images are modelled as a structure holding integer dimensions and a total
pixel function on integer coordinates (only coordinates inside
`[0, width) × [0, height)` are meaningful).  Pixels are RGBA quadruples of
naturals (the code works on 8-bit channels; channel arithmetic in the
relevant functions never wraps, so naturals are faithful).

Python floats are modelled by exact rationals: every arithmetic step of the
placement rule (`int(size*(1-2*pad_ratio))`, `min(max_w/w, max_h/h)`,
`int(w*scale)`, `(size-new_w)//2`) is mirrored by the corresponding exact
operation (`Int.floor`/`Int.toNat` for `int()` on non-negative values,
rational division, `Int.fdiv` for Python's floor division `//`).

PIL's `Image.resize` (Lanczos resampling) is third-party library code, not
part of this repository; compositing and claims that depend on it are
parameterised by an arbitrary resampling function `Resample` that yields
the pixel content of the resized image (PIL guarantees the resized image
has exactly the requested dimensions, which the model bakes in).
PIL's `paste` with an RGBA mask blends each channel of canvas and pasted
pixel weighted by the mask's alpha; `blendChan` models this straight-alpha
blend (where the mask alpha is 0 the canvas pixel is returned exactly, and
where it is 255 the pasted pixel is returned exactly, matching PIL).
-/

structure Pixel where
  r : ℕ
  g : ℕ
  b : ℕ
  a : ℕ
  deriving DecidableEq, Repr

structure Image where
  width : ℕ
  height : ℕ
  pix : ℤ → ℤ → Pixel

/-- A resampling function: given a source image and requested dimensions,
produces the pixel content of the resized image.  Stands for PIL's
`img.resize((new_w, new_h), Image.LANCZOS)`. -/
def Resample : Type := Image → ℕ → ℕ → ℤ → ℤ → Pixel

/-- The image of requested dimensions produced by a resampling function
(PIL's `resize` returns an image of exactly the requested size). -/
def resizeTo (rs : Resample) (img : Image) (w h : ℕ) : Image :=
  ⟨w, h, rs img w h⟩

/-! ### Background remover: `remove_near_white_bg(img, threshold=245, tolerance=15)`

```python
arr = np.array(img.convert("RGBA"))
r,g,b,a = arr[...,0], arr[...,1], arr[...,2], arr[...,3]
max_rgb = np.maximum(np.maximum(r,g), b)
min_rgb = np.minimum(np.minimum(r,g), b)
near_white = (max_rgb > threshold) & ((max_rgb - min_rgb) < tolerance)
arr[...,3] = np.where(near_white, 0, a)
```

The input is modelled as the RGBA-converted image (the `convert("RGBA")`
call is a PIL decoding step; an input without alpha arrives with alpha 255
everywhere).  `max_rgb - min_rgb` never wraps in uint8 since max ≥ min. -/

def maxRGB (px : Pixel) : ℕ := max (max px.r px.g) px.b

def minRGB (px : Pixel) : ℕ := min (min px.r px.g) px.b

/-- The per-pixel `near_white` test. -/
def nearWhite (threshold tolerance : ℕ) (px : Pixel) : Bool :=
  decide (maxRGB px > threshold) && decide (maxRGB px - minRGB px < tolerance)

/-- Per-pixel action of the background remover: alpha set to 0 on
`near_white` pixels, pixel unchanged otherwise. -/
def removePixel (threshold tolerance : ℕ) (px : Pixel) : Pixel :=
  if nearWhite threshold tolerance px then ⟨px.r, px.g, px.b, 0⟩ else px

/-- Models `remove_near_white_bg`: pixel-wise alpha rewrite, geometry unchanged. -/
def remove_near_white_bg (threshold tolerance : ℕ) (img : Image) : Image :=
  ⟨img.width, img.height, fun i j => removePixel threshold tolerance (img.pix i j)⟩

/-! ### C3: per-pixel behaviour of the background remover -/

/-- Claim C3: every pixel with `max(R,G,B) > threshold` and
`max − min < tolerance` gets alpha 0 (RGB kept); every other pixel is
unchanged; in particular a pixel with `max − min ≥ tolerance` keeps its
alpha regardless of brightness. -/
theorem c3_remove_near_white_per_pixel (threshold tolerance : ℕ) (img : Image)
    (i j : ℤ) :
    (maxRGB (img.pix i j) > threshold ∧
        maxRGB (img.pix i j) - minRGB (img.pix i j) < tolerance →
      (remove_near_white_bg threshold tolerance img).pix i j =
        ⟨(img.pix i j).r, (img.pix i j).g, (img.pix i j).b, 0⟩) ∧
    (¬ (maxRGB (img.pix i j) > threshold ∧
        maxRGB (img.pix i j) - minRGB (img.pix i j) < tolerance) →
      (remove_near_white_bg threshold tolerance img).pix i j = img.pix i j) ∧
    (tolerance ≤ maxRGB (img.pix i j) - minRGB (img.pix i j) →
      ((remove_near_white_bg threshold tolerance img).pix i j).a =
        (img.pix i j).a) := by
  refine ⟨fun h => ?_, fun h => ?_, fun h => ?_⟩
  · simp only [remove_near_white_bg, removePixel, nearWhite]
    rw [if_pos]
    simp [h.1, h.2]
  · simp only [remove_near_white_bg, removePixel, nearWhite]
    rw [if_neg]
    intro hc
    exact h ⟨by simpa using (Bool.and_elim_left hc), by simpa using (Bool.and_elim_right hc)⟩
  · simp only [remove_near_white_bg, removePixel, nearWhite]
    rw [if_neg]
    intro hc
    have h2 := Bool.and_elim_right hc
    simp only [decide_eq_true_eq] at h2
    omega

/-- Concrete instantiation of `c3_remove_near_white_per_pixel`: a pure white
opaque pixel is cleared, a saturated bright pixel is kept. -/
theorem c3_remove_near_white_per_pixel_witness :
    ((maxRGB ((Image.mk 1 1 fun _ _ => ⟨255, 255, 255, 255⟩).pix 0 0) > 245 ∧
        maxRGB ((Image.mk 1 1 fun _ _ => ⟨255, 255, 255, 255⟩).pix 0 0) -
          minRGB ((Image.mk 1 1 fun _ _ => ⟨255, 255, 255, 255⟩).pix 0 0) < 15) ∧
      (remove_near_white_bg 245 15 (Image.mk 1 1 fun _ _ => ⟨255, 255, 255, 255⟩)).pix 0 0 =
        ⟨255, 255, 255, 0⟩) ∧
    (15 ≤ maxRGB ((Image.mk 1 1 fun _ _ => ⟨255, 0, 0, 255⟩).pix 0 0) -
        minRGB ((Image.mk 1 1 fun _ _ => ⟨255, 0, 0, 255⟩).pix 0 0) ∧
      ((remove_near_white_bg 245 15 (Image.mk 1 1 fun _ _ => ⟨255, 0, 0, 255⟩)).pix 0 0).a =
        ((Image.mk 1 1 fun _ _ => ⟨255, 0, 0, 255⟩).pix 0 0).a) :=
  ⟨⟨⟨by decide, by decide⟩,
      (c3_remove_near_white_per_pixel 245 15 _ 0 0).1 ⟨by decide, by decide⟩⟩,
    ⟨by decide,
      (c3_remove_near_white_per_pixel 245 15 _ 0 0).2.2 (by decide)⟩⟩

/-! ### C8: idempotence -/

/-- Claim C8: `remove_near_white_bg` is idempotent, and a pixel whose alpha is
already 0 keeps alpha 0. -/
theorem c8_remove_near_white_idempotent (threshold tolerance : ℕ) (img : Image) :
    remove_near_white_bg threshold tolerance
        (remove_near_white_bg threshold tolerance img) =
      remove_near_white_bg threshold tolerance img ∧
    (∀ i j : ℤ, (img.pix i j).a = 0 →
      ((remove_near_white_bg threshold tolerance img).pix i j).a = 0) := by
  constructor
  · show Image.mk _ _ _ = Image.mk _ _ _
    congr 1
    funext i j
    simp only [remove_near_white_bg]
    unfold removePixel
    by_cases h : nearWhite threshold tolerance (img.pix i j) = true
    · rw [if_pos h]
      have hsame : nearWhite threshold tolerance
          (⟨(img.pix i j).r, (img.pix i j).g, (img.pix i j).b, 0⟩ : Pixel) = true := by
        simpa [nearWhite, maxRGB, minRGB] using h
      rw [if_pos hsame]
    · rw [if_neg h, if_neg h]
  · intro i j h
    simp only [remove_near_white_bg]
    unfold removePixel
    by_cases hc : nearWhite threshold tolerance (img.pix i j) = true
    · rw [if_pos hc]
    · rw [if_neg hc]; exact h

/-- Concrete instantiation of `c8_remove_near_white_idempotent` on a
one-pixel image that is already transparent. -/
theorem c8_remove_near_white_idempotent_witness :
    ((Image.mk 1 1 fun _ _ => ⟨0, 0, 0, 0⟩).pix 0 0).a = 0 ∧
    ((remove_near_white_bg 245 15 (Image.mk 1 1 fun _ _ => ⟨0, 0, 0, 0⟩)).pix 0 0).a = 0 :=
  ⟨by decide,
    (c8_remove_near_white_idempotent 245 15 (Image.mk 1 1 fun _ _ => ⟨0, 0, 0, 0⟩)).2
      0 0 (by decide)⟩

/-! ### C9: only alpha changes -/

/-- Claim C9: `remove_near_white_bg` preserves the image dimensions and every
pixel's R, G, B channels; only alpha may differ. -/
theorem c9_remove_near_white_frame (threshold tolerance : ℕ) (img : Image) :
    (remove_near_white_bg threshold tolerance img).width = img.width ∧
    (remove_near_white_bg threshold tolerance img).height = img.height ∧
    ∀ i j : ℤ,
      ((remove_near_white_bg threshold tolerance img).pix i j).r = (img.pix i j).r ∧
      ((remove_near_white_bg threshold tolerance img).pix i j).g = (img.pix i j).g ∧
      ((remove_near_white_bg threshold tolerance img).pix i j).b = (img.pix i j).b := by
  refine ⟨rfl, rfl, fun i j => ?_⟩
  simp only [remove_near_white_bg]
  unfold removePixel
  by_cases hc : nearWhite threshold tolerance (img.pix i j) = true
  · rw [if_pos hc]; exact ⟨rfl, rfl, rfl⟩
  · rw [if_neg hc]; exact ⟨rfl, rfl, rfl⟩

/-! ### Canvas compositor geometry

```python
def fit_on_square(img, size, pad_ratio=0.1):
    canvas = Image.new("RGBA", (size, size), (0,0,0,0))
    w, h = img.size
    max_side = int(size*(1 - 2*pad_ratio))
    scale = min(max_side/w, max_side/h)
    new_w, new_h = max(1, int(w*scale)), max(1, int(h*scale))
    img_resized = img.resize((new_w, new_h), Image.LANCZOS)
    x = (size - new_w)//2
    y = (size - new_h)//2
    canvas.paste(img_resized, (x,y), img_resized)
    return canvas

def center_on_canvas(img, w, h, pad_ratio=0.12):
    canvas = Image.new("RGBA", (w,h), (255,255,255,0))
    max_w = int(w*(1-2*pad_ratio))
    max_h = int(h*(1-2*pad_ratio))
    scale = min(max_w/img.width, max_h/img.height)
    new = img.resize((max(1, int(img.width*scale)), max(1, int(img.height*scale))), Image.LANCZOS)
    x = (w - new.width)//2
    y = (h - new.height)//2
    canvas.paste(new, (x,y), new)
    return canvas
```

For `pad_ratio ∈ [0, 0.5)` and non-negative dimensions all the values fed
to Python's `int(...)` are non-negative, so `int()` (truncation toward
zero) coincides with the floor, modelled by `(Int.floor _).toNat`.
Python's `//` is floor division, modelled by `Int.fdiv`. -/

/-- Models `int(dim*(1 - 2*pad_ratio))`: the largest extent the content may take
on a canvas dimension. -/
def maxContent (dim : ℕ) (p : ℚ) : ℕ := (⌊(dim : ℚ) * (1 - 2 * p)⌋).toNat

/-- Models `min(max_w/w, max_h/h)`: the shared uniform scale factor. -/
def contentScale (w h maxW maxH : ℕ) : ℚ :=
  min ((maxW : ℚ) / (w : ℚ)) ((maxH : ℚ) / (h : ℚ))

/-- Models `max(1, int(d*scale))`: a resampled content dimension. -/
def scaledDim (d : ℕ) (s : ℚ) : ℕ := max 1 (⌊(d : ℚ) * s⌋).toNat

/-- Models `(canvas - content)//2`: the centering offset (Python floor division). -/
def centerOffset (canvas content : ℕ) : ℤ := Int.fdiv ((canvas : ℤ) - (content : ℤ)) 2

/-- The local `scale` in `fit_on_square` (both axes bounded by `max_side`). -/
def fit_scale (img : Image) (size : ℕ) (p : ℚ) : ℚ :=
  contentScale img.width img.height (maxContent size p) (maxContent size p)

/-- The local `new_w` in `fit_on_square`. -/
def fit_new_w (img : Image) (size : ℕ) (p : ℚ) : ℕ :=
  scaledDim img.width (fit_scale img size p)

/-- The local `new_h` in `fit_on_square`. -/
def fit_new_h (img : Image) (size : ℕ) (p : ℚ) : ℕ :=
  scaledDim img.height (fit_scale img size p)

/-- The local `x` in `fit_on_square`. -/
def fit_x (img : Image) (size : ℕ) (p : ℚ) : ℤ :=
  centerOffset size (fit_new_w img size p)

/-- The local `y` in `fit_on_square`. -/
def fit_y (img : Image) (size : ℕ) (p : ℚ) : ℤ :=
  centerOffset size (fit_new_h img size p)

/-- The local `scale` in `center_on_canvas`. -/
def center_scale (img : Image) (w h : ℕ) (p : ℚ) : ℚ :=
  contentScale img.width img.height (maxContent w p) (maxContent h p)

/-- The local `new.width` in `center_on_canvas`. -/
def center_new_w (img : Image) (w h : ℕ) (p : ℚ) : ℕ :=
  scaledDim img.width (center_scale img w h p)

/-- The local `new.height` in `center_on_canvas`. -/
def center_new_h (img : Image) (w h : ℕ) (p : ℚ) : ℕ :=
  scaledDim img.height (center_scale img w h p)

/-- The local `x` in `center_on_canvas`. -/
def center_x (img : Image) (w h : ℕ) (p : ℚ) : ℤ :=
  centerOffset w (center_new_w img w h p)

/-- The local `y` in `center_on_canvas`. -/
def center_y (img : Image) (w h : ℕ) (p : ℚ) : ℤ :=
  centerOffset h (center_new_h img w h p)

/-! ### Compositing

PIL's `canvas.paste(im, (x, y), mask)` with an RGBA `mask` blends, per
channel, the canvas pixel and the pasted pixel weighted by the mask's
alpha (`mask` here is the pasted image itself, so the weight is the pasted
pixel's own alpha).  `blendChan 0` returns the canvas channel exactly and
`blendChan 255` the pasted channel exactly, as PIL does. -/

/-- Straight-alpha blend of one 8-bit channel: canvas channel `c`, pasted
channel `v`, mask alpha `a`. -/
def blendChan (c v a : ℕ) : ℕ := (c * (255 - a) + v * a) / 255

/-- Blend a pasted RGBA pixel onto an RGBA canvas pixel, using the pasted
pixel's own alpha as the mask (all four bands are blended). -/
def pasteRGBA (bg fg : Pixel) : Pixel :=
  ⟨blendChan bg.r fg.r fg.a, blendChan bg.g fg.g fg.a,
    blendChan bg.b fg.b fg.a, blendChan bg.a fg.a fg.a⟩

/-- The canvas produced by pasting `content` at offset `(x, y)` onto a
`w × h` canvas pre-filled with `fill`, masked by the content's alpha. -/
def pasteOn (w h : ℕ) (fill : Pixel) (content : Image) (x y : ℤ) : Image :=
  ⟨w, h, fun i j =>
    if x ≤ i ∧ i < x + content.width ∧ y ≤ j ∧ j < y + content.height then
      pasteRGBA fill (content.pix (i - x) (j - y))
    else fill⟩

/-- Models `fit_on_square(img, size, pad_ratio)`; canvas fill `(0,0,0,0)`. -/
def fit_on_square (rs : Resample) (img : Image) (size : ℕ) (p : ℚ) : Image :=
  pasteOn size size ⟨0, 0, 0, 0⟩
    (resizeTo rs img (fit_new_w img size p) (fit_new_h img size p))
    (fit_x img size p) (fit_y img size p)

/-- Models `center_on_canvas(img, w, h, pad_ratio)`; canvas fill `(255,255,255,0)`. -/
def center_on_canvas (rs : Resample) (img : Image) (w h : ℕ) (p : ℚ) : Image :=
  pasteOn w h ⟨255, 255, 255, 0⟩
    (resizeTo rs img (center_new_w img w h p) (center_new_h img w h p))
    (center_x img w h p) (center_y img w h p)

/-! ### Helper lemmas for the placement geometry -/

/-- Python's `(c - n)//2` on naturals is the floor of the exact rational
`(c - n)/2`. -/
lemma centerOffset_eq_floor (c n : ℕ) :
    centerOffset c n = ⌊((c : ℚ) - (n : ℚ)) / 2⌋ := by
  unfold centerOffset
  rw [Int.fdiv_eq_ediv _ (by norm_num)]
  have hcast : ((c : ℚ) - (n : ℚ)) = (((c : ℤ) - (n : ℤ) : ℤ) : ℚ) := by push_cast; ring
  rw [hcast, show (2 : ℚ) = ((2 : ℕ) : ℚ) by norm_num, Rat.floor_intCast_div_natCast]
  norm_num

/-- If the scale is at most `m / d`, the scaled dimension is at most
`max 1 m`. -/
lemma scaledDim_le (d m : ℕ) (s : ℚ) (hd : 0 < d) (hs : s ≤ (m : ℚ) / d) :
    scaledDim d s ≤ max 1 m := by
  unfold scaledDim
  have hd' : (0 : ℚ) < d := by exact_mod_cast hd
  have h1 : (d : ℚ) * s ≤ m := by
    calc (d : ℚ) * s ≤ d * ((m : ℚ) / d) := by
          exact mul_le_mul_of_nonneg_left hs (le_of_lt hd')
      _ = m := by field_simp
  have h2 : ⌊(d : ℚ) * s⌋ ≤ (m : ℤ) := by
    have := Int.floor_le_floor h1
    simpa using this
  have h3 : (⌊(d : ℚ) * s⌋).toNat ≤ m := by
    have := Int.toNat_le_toNat h2
    simpa using this
  exact max_le_max le_rfl h3

/-- The bound `maxContent dim p` never exceeds the exact product `dim * (1 - 2p)`
when that product is non-negative. -/
lemma maxContent_le (dim : ℕ) (p : ℚ) (h : 0 ≤ (dim : ℚ) * (1 - 2 * p)) :
    (maxContent dim p : ℚ) ≤ (dim : ℚ) * (1 - 2 * p) := by
  unfold maxContent
  have h0 : (0 : ℤ) ≤ ⌊(dim : ℚ) * (1 - 2 * p)⌋ := Int.floor_nonneg.2 h
  have h1 : (((⌊(dim : ℚ) * (1 - 2 * p)⌋).toNat : ℕ) : ℚ) =
      ((⌊(dim : ℚ) * (1 - 2 * p)⌋ : ℤ) : ℚ) := by
    exact_mod_cast Int.toNat_of_nonneg h0
  rw [h1]
  exact Int.floor_le _

/-- For a source dimension of 1, the scaled dimension collapses to the
clamped minimum of the two content bounds. -/
lemma scaledDim_one (maxW maxH : ℕ) :
    scaledDim 1 (contentScale 1 1 maxW maxH) = max 1 (min maxW maxH) := by
  unfold scaledDim contentScale
  rw [Nat.cast_one, div_one, div_one, one_mul, ← Nat.cast_min,
    Int.floor_natCast, Int.toNat_natCast]

/-- With `pad_ratio = 0` the content bound is the full canvas dimension. -/
lemma maxContent_zero (dim : ℕ) : maxContent dim 0 = dim := by
  unfold maxContent
  rw [show (1 - 2 * (0 : ℚ)) = 1 by norm_num, mul_one, Int.floor_natCast,
    Int.toNat_natCast]

/-! ### C1: the resampled content dimensions (truncation, not rounding) -/

/-- A 3 × 4 all-black opaque test image. -/
def imgTall : Image := ⟨3, 4, fun _ _ => ⟨0, 0, 0, 255⟩⟩

/-- Claim C1, counterexample: on a 3 × 4 source placed on a square canvas of
size 2 with `pad_ratio = 0`, the scale is `1/2`; the code computes
`new_w = max(1, int(3 · 1/2)) = 1`, while the claimed formula
`max(1, round(3 · 1/2))` gives 2. -/
theorem c1_counterexample :
    fit_new_w imgTall 2 0 = 1 ∧
    max 1 (round ((imgTall.width : ℚ) * fit_scale imgTall 2 0)).toNat = 2 ∧
    fit_new_w imgTall 2 0 ≠
      max 1 (round ((imgTall.width : ℚ) * fit_scale imgTall 2 0)).toNat := by
  have hmc : maxContent 2 0 = 2 := maxContent_zero 2
  have hscale : fit_scale imgTall 2 0 = 1 / 2 := by
    unfold fit_scale contentScale imgTall
    rw [hmc]
    norm_num
  have hA : fit_new_w imgTall 2 0 = 1 := by
    unfold fit_new_w
    rw [hscale]
    unfold imgTall scaledDim
    norm_num
  have hB : max 1 (round ((imgTall.width : ℚ) * fit_scale imgTall 2 0)).toNat = 2 := by
    rw [hscale]
    unfold imgTall
    rw [round_eq]
    norm_num
    decide
  exact ⟨hA, hB, by rw [hA, hB]; norm_num⟩

/-- Claim C1, amended: in both `fit_on_square` and `center_on_canvas` the
resampled content dimensions are `new_w = max(1, ⌊src_w · scale⌋)` and
`new_h = max(1, ⌊src_h · scale⌋)` (truncation, not rounding), where
`scale = min(max_w/src_w, max_h/src_h)` with the content bounds
`maxContent` of the canvas dimensions. -/
theorem c1_amended_truncated_dims (img : Image) (size w h : ℕ) (p : ℚ) :
    fit_new_w img size p =
      max 1 (⌊(img.width : ℚ) *
        min ((maxContent size p : ℚ) / (img.width : ℚ))
          ((maxContent size p : ℚ) / (img.height : ℚ))⌋).toNat ∧
    fit_new_h img size p =
      max 1 (⌊(img.height : ℚ) *
        min ((maxContent size p : ℚ) / (img.width : ℚ))
          ((maxContent size p : ℚ) / (img.height : ℚ))⌋).toNat ∧
    center_new_w img w h p =
      max 1 (⌊(img.width : ℚ) *
        min ((maxContent w p : ℚ) / (img.width : ℚ))
          ((maxContent h p : ℚ) / (img.height : ℚ))⌋).toNat ∧
    center_new_h img w h p =
      max 1 (⌊(img.height : ℚ) *
        min ((maxContent w p : ℚ) / (img.width : ℚ))
          ((maxContent h p : ℚ) / (img.height : ℚ))⌋).toNat :=
  ⟨rfl, rfl, rfl, rfl⟩

/-! ### C2: the content respects the padded bounds -/

/-- Claim C2: for a source of positive dimensions and `pad_ratio ∈ [0, 0.5)`,
the placed content dimensions of `fit_on_square` and `center_on_canvas`
never exceed `canvas_dim · (1 − 2·pad_ratio)` by more than one pixel. -/
theorem c2_content_within_padded_bounds (img : Image) (size w h : ℕ) (p : ℚ)
    (hw : 0 < img.width) (hh : 0 < img.height) (hp0 : 0 ≤ p) (hp : p < 1 / 2) :
    (fit_new_w img size p : ℚ) ≤ (size : ℚ) * (1 - 2 * p) + 1 ∧
    (fit_new_h img size p : ℚ) ≤ (size : ℚ) * (1 - 2 * p) + 1 ∧
    (center_new_w img w h p : ℚ) ≤ (w : ℚ) * (1 - 2 * p) + 1 ∧
    (center_new_h img w h p : ℚ) ≤ (h : ℚ) * (1 - 2 * p) + 1 := by
  have hfac : (0 : ℚ) ≤ 1 - 2 * p := by linarith
  have hbound : ∀ dim : ℕ, (0 : ℚ) ≤ (dim : ℚ) * (1 - 2 * p) := fun dim =>
    mul_nonneg (Nat.cast_nonneg dim) hfac
  have step : ∀ d m : ℕ, ∀ s : ℚ, 0 < d → s ≤ (m : ℚ) / d →
      ∀ dim : ℕ, (m : ℚ) ≤ (dim : ℚ) * (1 - 2 * p) →
      (scaledDim d s : ℚ) ≤ (dim : ℚ) * (1 - 2 * p) + 1 := by
    intro d m s hd hs dim hm
    have h1 : scaledDim d s ≤ max 1 m := scaledDim_le d m s hd hs
    have h2 : (max 1 m : ℕ) ≤ m + 1 := by omega
    have h3 : (scaledDim d s : ℚ) ≤ (m : ℚ) + 1 := by
      exact_mod_cast le_trans h1 h2
    linarith
  refine ⟨?_, ?_, ?_, ?_⟩
  · exact step img.width (maxContent size p) _ hw (min_le_left _ _) size
      (maxContent_le size p (hbound size))
  · exact step img.height (maxContent size p) _ hh (min_le_right _ _) size
      (maxContent_le size p (hbound size))
  · exact step img.width (maxContent w p) _ hw (min_le_left _ _) w
      (maxContent_le w p (hbound w))
  · exact step img.height (maxContent h p) _ hh (min_le_right _ _) h
      (maxContent_le h p (hbound h))

/-- Concrete instantiation of `c2_content_within_padded_bounds` on the
3 × 4 test image, canvas 2 (square) and 5 × 7 (rectangle), `pad_ratio = 0`. -/
theorem c2_content_within_padded_bounds_witness :
    (fit_new_w imgTall 2 0 : ℚ) ≤ (2 : ℚ) * (1 - 2 * 0) + 1 ∧
    (fit_new_h imgTall 2 0 : ℚ) ≤ (2 : ℚ) * (1 - 2 * 0) + 1 ∧
    (center_new_w imgTall 5 7 0 : ℚ) ≤ (5 : ℚ) * (1 - 2 * 0) + 1 ∧
    (center_new_h imgTall 5 7 0 : ℚ) ≤ (7 : ℚ) * (1 - 2 * 0) + 1 := by
  have h := c2_content_within_padded_bounds imgTall 2 5 7 0 (by decide) (by decide)
    (by norm_num) (by norm_num)
  simpa using h

/-! ### C4: integer centering of the placement offsets -/

/-- Claim C4: in both `fit_on_square` and `center_on_canvas` the top-left
placement offset is `x = ⌊(canvas_w − new_w)/2⌋` and
`y = ⌊(canvas_h − new_h)/2⌋` (Python's floor division `//`). -/
theorem c4_centered_offsets (img : Image) (size w h : ℕ) (p : ℚ) :
    fit_x img size p = ⌊((size : ℚ) - (fit_new_w img size p : ℚ)) / 2⌋ ∧
    fit_y img size p = ⌊((size : ℚ) - (fit_new_h img size p : ℚ)) / 2⌋ ∧
    center_x img w h p = ⌊((w : ℚ) - (center_new_w img w h p : ℚ)) / 2⌋ ∧
    center_y img w h p = ⌊((h : ℚ) - (center_new_h img w h p : ℚ)) / 2⌋ :=
  ⟨centerOffset_eq_floor _ _, centerOffset_eq_floor _ _,
    centerOffset_eq_floor _ _, centerOffset_eq_floor _ _⟩

/-! ### C6: behaviour on a 1 × 1 source image -/

/-- A 1 × 1 all-black opaque test image. -/
def imgDot : Image := ⟨1, 1, fun _ _ => ⟨0, 0, 0, 255⟩⟩

/-- Claim C6, counterexample: a 1 × 1 source on a square canvas of size 10
with `pad_ratio = 0` is upscaled: the code computes `new_w = 10`, not the
claimed `new_w = 1`. -/
theorem c6_counterexample :
    fit_new_w imgDot 10 0 = 10 ∧ fit_new_w imgDot 10 0 ≠ 1 := by
  have hmc : maxContent 10 0 = 10 := maxContent_zero 10
  have hscale : fit_scale imgDot 10 0 = 10 := by
    unfold fit_scale contentScale imgDot
    rw [hmc]
    norm_num
  have hA : fit_new_w imgDot 10 0 = 10 := by
    unfold fit_new_w
    rw [hscale]
    unfold imgDot scaledDim
    norm_num
    all_goals decide
  exact ⟨hA, by rw [hA]; norm_num⟩

/-- Claim C6, amended: for a 1 × 1 source image, every canvas size and every
`pad_ratio`, the placement rule is total (it returns a canvas of the
requested dimensions) and the clamped content dimensions are
`new_w = new_h = max(1, maxContent)` — the content is upscaled to the
padded bound, collapsing to 1 only when the bound is below one pixel. -/
theorem c6_amended_one_pixel_source (px : ℤ → ℤ → Pixel) (rs : Resample)
    (size w h : ℕ) (p : ℚ) :
    (fit_on_square rs (Image.mk 1 1 px) size p).width = size ∧
    (fit_on_square rs (Image.mk 1 1 px) size p).height = size ∧
    fit_new_w (Image.mk 1 1 px) size p = max 1 (maxContent size p) ∧
    fit_new_h (Image.mk 1 1 px) size p = max 1 (maxContent size p) ∧
    (center_on_canvas rs (Image.mk 1 1 px) w h p).width = w ∧
    (center_on_canvas rs (Image.mk 1 1 px) w h p).height = h ∧
    center_new_w (Image.mk 1 1 px) w h p =
      max 1 (min (maxContent w p) (maxContent h p)) ∧
    center_new_h (Image.mk 1 1 px) w h p =
      max 1 (min (maxContent w p) (maxContent h p)) := by
  refine ⟨rfl, rfl, ?_, ?_, rfl, rfl, ?_, ?_⟩
  · show scaledDim 1 (contentScale 1 1 (maxContent size p) (maxContent size p)) = _
    rw [scaledDim_one, min_self]
  · show scaledDim 1 (contentScale 1 1 (maxContent size p) (maxContent size p)) = _
    rw [scaledDim_one, min_self]
  · exact scaledDim_one (maxContent w p) (maxContent h p)
  · exact scaledDim_one (maxContent w p) (maxContent h p)

/-! ### C5: fit_on_square versus center_on_canvas at width = height -/

/-- A concrete executable resampling function (nearest neighbour), used to
instantiate statements that hold for every resampling function. -/
def rsNearest : Resample := fun img w h i j =>
  img.pix (i * img.width / w) (j * img.height / h)

/-- Claim C5, counterexample: on a square canvas the two functions produce the
same geometry but not the same pixel values: `fit_on_square` pre-fills the
canvas with `(0,0,0,0)` while `center_on_canvas` pre-fills with
`(255,255,255,0)`, so the background pixel `(0,0)` of a 3 × 3 canvas with
a centered 1 × 1 content differs. -/
theorem c5_counterexample :
    (fit_on_square rsNearest imgDot 3 (1 / 3)).pix 0 0 ≠
      (center_on_canvas rsNearest imgDot 3 3 (1 / 3)).pix 0 0 := by
  have hmc : maxContent 3 (1 / 3 : ℚ) = 1 := by
    unfold maxContent
    norm_num
  have hscale : fit_scale imgDot 3 (1 / 3) = 1 := by
    unfold fit_scale contentScale imgDot
    rw [hmc]
    norm_num
  have hnw : fit_new_w imgDot 3 (1 / 3) = 1 := by
    unfold fit_new_w
    rw [hscale]
    unfold imgDot scaledDim
    norm_num
  have hnh : fit_new_h imgDot 3 (1 / 3) = 1 := by
    unfold fit_new_h
    rw [hscale]
    unfold imgDot scaledDim
    norm_num
  have hx : fit_x imgDot 3 (1 / 3) = 1 := by
    unfold fit_x
    rw [hnw]
    decide
  have hy : fit_y imgDot 3 (1 / 3) = 1 := by
    unfold fit_y
    rw [hnh]
    decide
  have hnwc : center_new_w imgDot 3 3 (1 / 3) = 1 := hnw
  have hnhc : center_new_h imgDot 3 3 (1 / 3) = 1 := hnh
  have hxc : center_x imgDot 3 3 (1 / 3) = 1 := hx
  have hyc : center_y imgDot 3 3 (1 / 3) = 1 := hy
  simp only [fit_on_square, center_on_canvas, pasteOn, resizeTo]
  rw [hx, hy, hnw, hnh, hxc, hyc, hnwc, hnhc]
  rw [if_neg (by decide), if_neg (by decide)]
  decide

/-- Claim C5, amended: for every resampling function, image, size and
`pad_ratio`, `fit_on_square(img, size, p)` and
`center_on_canvas(img, size, size, p)` agree on canvas dimensions, content
geometry, and the whole alpha channel; only the RGB values of the
transparent canvas fill (and hence of blended pixels) differ. -/
theorem c5_amended_same_geometry_and_alpha (rs : Resample) (img : Image)
    (size : ℕ) (p : ℚ) :
    (fit_on_square rs img size p).width = (center_on_canvas rs img size size p).width ∧
    (fit_on_square rs img size p).height = (center_on_canvas rs img size size p).height ∧
    fit_new_w img size p = center_new_w img size size p ∧
    fit_new_h img size p = center_new_h img size size p ∧
    fit_x img size p = center_x img size size p ∧
    fit_y img size p = center_y img size size p ∧
    ∀ i j : ℤ,
      ((fit_on_square rs img size p).pix i j).a =
        ((center_on_canvas rs img size size p).pix i j).a := by
  refine ⟨rfl, rfl, rfl, rfl, rfl, rfl, fun i j => ?_⟩
  simp only [fit_on_square, center_on_canvas, pasteOn, resizeTo]
  have ew : center_new_w img size size p = fit_new_w img size p := rfl
  have eh : center_new_h img size size p = fit_new_h img size p := rfl
  have ex : center_x img size size p = fit_x img size p := rfl
  have ey : center_y img size size p = fit_y img size p := rfl
  rw [ew, eh, ex, ey]
  by_cases hcond : fit_x img size p ≤ i ∧
      i < fit_x img size p + (fit_new_w img size p : ℤ) ∧
      fit_y img size p ≤ j ∧
      j < fit_y img size p + (fit_new_h img size p : ℤ)
  · rw [if_pos hcond, if_pos hcond]
    rfl
  · rw [if_neg hcond, if_neg hcond]

/-! ### C7: the flag mockup

```python
def flag_mockup(rw, rh, width=1500):
    height = int(width * rh/rw)
    bg = Image.new("RGB", (width, height), (255,255,255))
    placed = center_canvas(im_trans, width, height, 0.25)
    bg.paste(placed.convert("RGB"), (0,0), placed)
    return bg
```

The nested `center_canvas` helper in `main` is line-for-line the same
placement rule as `center_on_canvas` (fill `(255,255,255,0)`), called here
with `pad_ratio = 0.25`, so the model reuses `center_on_canvas`.
The output is an RGB image (no alpha band), modelled with alpha 255
everywhere; `placed.convert("RGB")` keeps the RGB channels and drops the
alpha band, which re-enters only as the paste mask. -/

/-- Models `int(width * rh/rw)`: the derived flag height. -/
def flagHeight (ratioW ratioH width : ℕ) : ℕ :=
  (⌊(width : ℚ) * (ratioH : ℚ) / (ratioW : ℚ)⌋).toNat

/-- Blend a pasted RGB pixel (RGB channels of `fg`) onto an opaque canvas
pixel using `fg`'s alpha as the mask; the result has no alpha band
(opaque, alpha 255). -/
def pasteRGB (bg fg : Pixel) : Pixel :=
  ⟨blendChan bg.r fg.r fg.a, blendChan bg.g fg.g fg.a, blendChan bg.b fg.b fg.a, 255⟩

/-- Models `flag_mockup(rw, rh, width)` applied to a source image. -/
def flag_mockup (rs : Resample) (img : Image) (ratioW ratioH width : ℕ) : Image :=
  Image.mk width (flagHeight ratioW ratioH width) (fun i j =>
    pasteRGB ⟨255, 255, 255, 255⟩
      ((center_on_canvas rs img width (flagHeight ratioW ratioH width) (1 / 4)).pix i j))

/-- The 3:2 flag at base width 900 has height exactly 600. -/
lemma flagHeight_three_two : flagHeight 3 2 900 = 600 := by
  unfold flagHeight
  rw [show ((900 : ℕ) : ℚ) * ((2 : ℕ) : ℚ) / ((3 : ℕ) : ℚ) = ((600 : ℕ) : ℚ) by
      push_cast; norm_num,
    Int.floor_natCast, Int.toNat_natCast]

/-- Claim C7: the flag mockup at ratio 3:2 with base width 900 has output
height exactly 600, and every output pixel outside the placed content
region is opaque white `(255,255,255)`. -/
theorem c7_flag_mockup (rs : Resample) (img : Image)
    (hw : 0 < img.width) (hh : 0 < img.height) :
    flagHeight 3 2 900 = 600 ∧
    (flag_mockup rs img 3 2 900).width = 900 ∧
    (flag_mockup rs img 3 2 900).height = 600 ∧
    ∀ i j : ℤ,
      ¬ (center_x img 900 600 (1 / 4) ≤ i ∧
          i < center_x img 900 600 (1 / 4) + (center_new_w img 900 600 (1 / 4) : ℤ) ∧
          center_y img 900 600 (1 / 4) ≤ j ∧
          j < center_y img 900 600 (1 / 4) + (center_new_h img 900 600 (1 / 4) : ℤ)) →
      (flag_mockup rs img 3 2 900).pix i j = ⟨255, 255, 255, 255⟩ := by
  refine ⟨flagHeight_three_two, rfl, flagHeight_three_two, fun i j hout => ?_⟩
  rw [← flagHeight_three_two] at hout
  simp only [flag_mockup, center_on_canvas, pasteOn, resizeTo]
  rw [if_neg hout]
  decide

/-- Concrete instantiation of `c7_flag_mockup`: with the nearest-neighbour
resampler and the 1 × 1 test image, the corner pixel of the 3:2/900 flag is
opaque white. -/
theorem c7_flag_mockup_witness :
    flagHeight 3 2 900 = 600 ∧
    (flag_mockup rsNearest imgDot 3 2 900).pix 0 0 = ⟨255, 255, 255, 255⟩ := by
  have hmw : maxContent 900 (1 / 4 : ℚ) = 450 := by
    unfold maxContent
    norm_num
    all_goals decide
  have hmh : maxContent 600 (1 / 4 : ℚ) = 300 := by
    unfold maxContent
    norm_num
    all_goals decide
  have hscale : center_scale imgDot 900 600 (1 / 4) = 300 := by
    unfold center_scale contentScale imgDot
    rw [hmw, hmh]
    norm_num
  have hnw : center_new_w imgDot 900 600 (1 / 4) = 300 := by
    unfold center_new_w
    rw [hscale]
    unfold imgDot scaledDim
    norm_num
    all_goals decide
  have hx : center_x imgDot 900 600 (1 / 4) = 300 := by
    unfold center_x
    rw [hnw]
    decide
  have h := c7_flag_mockup rsNearest imgDot (by decide) (by decide)
  exact ⟨h.1, h.2.2.2 0 0 (fun hc => by rw [hx] at hc; exact absurd hc.1 (by decide))⟩

/-! ### C10: the iOS artifact group

```python
ios_sizes = [20,29,40,60,76,83]
scales = [1,2,3]
for base in ios_sizes:
    for scale in scales:
        size = base*scale
        if base == 83 and scale == 1:
            continue
        fit_on_square(im_trans, size, 0.12).save(..., f"Icon-{base}pt@{scale}x-{size}.png")
fit_on_square(im_trans, 167, 0.12).save(..., "Icon-83.5pt@2x-167.png")
fit_on_square(im_trans, 1024, 0.12).save(..., "AppStore-1024.png")
```
-/

def ios_sizes : List ℕ := [20, 29, 40, 60, 76, 83]

def ios_scale_factors : List ℕ := [1, 2, 3]

/-- The f-string `Icon-{base}pt@{scale}x-{size}.png` with `size = base*scale`. -/
def iconName (base scl : ℕ) : String :=
  "Icon-" ++ toString base ++ "pt@" ++ toString scl ++ "x-" ++
    toString (base * scl) ++ ".png"

/-- The filenames written into the iOS folder, in generation order: the
double loop over bases and scales minus the skipped `(83, 1)` pair, then
the special 83.5pt\@2x entry, then the store icon. -/
def ios_filenames : List String :=
  (((ios_sizes.product ios_scale_factors).filter
        (fun bs => !(bs.1 == 83 && bs.2 == 1))).map
      (fun bs => iconName bs.1 bs.2)) ++
    ["Icon-83.5pt@2x-167.png", "AppStore-1024.png"]

/-- Claim C10: the iOS group produces exactly 19 artifacts with pairwise
distinct, fully enumerable filenames. -/
theorem c10_ios_artifacts :
    ios_filenames.length = 19 ∧ ios_filenames.Nodup ∧
    ios_filenames =
      ["Icon-20pt@1x-20.png", "Icon-20pt@2x-40.png", "Icon-20pt@3x-60.png",
        "Icon-29pt@1x-29.png", "Icon-29pt@2x-58.png", "Icon-29pt@3x-87.png",
        "Icon-40pt@1x-40.png", "Icon-40pt@2x-80.png", "Icon-40pt@3x-120.png",
        "Icon-60pt@1x-60.png", "Icon-60pt@2x-120.png", "Icon-60pt@3x-180.png",
        "Icon-76pt@1x-76.png", "Icon-76pt@2x-152.png", "Icon-76pt@3x-228.png",
        "Icon-83pt@2x-166.png", "Icon-83pt@3x-249.png",
        "Icon-83.5pt@2x-167.png", "AppStore-1024.png"] := by
  refine ⟨by decide, by decide, by decide⟩
